import Mathlib

/-!
# Discord channel adapter of picoclaw: typing registry, send path, inbound pipeline

A shallow embedding of `pkg/channels/discord.go` and `pkg/bus/types.go`.

* The adapter value `DiscordChannel` carries the fields the methods read and write:
  the typing registry `typingTasks` (a Go map, here an association list), the
  `uint64` counter `typingSeq` (arithmetic modulo `2^64`), the running flag and the
  name of the embedded `BaseChannel`, and a counter of the contexts created so far,
  from which `context.WithCancel` takes a fresh cancel handle.
* Every method runs its registry accesses under `typingMu`, so each method is one
  sequential state transition; calls into the platform session, registry deletions
  and invocations of cancel functions are recorded in an effect trace, in program
  order.
* The outcome of a platform call (open, identity lookup, close, message send,
  download, transcription) is an argument of the method that makes the call.
* `Send` runs the platform send in a goroutine of its own and awaits it together with
  the send deadline. The trace of `Send` holds the launch of that goroutine and its
  platform call as separate steps; on timeout the goroutine is not awaited, and the
  place of its platform call among the later steps is an argument (the schedule).
* The body of the typing goroutine (ticker and timers) is not modelled; a launched
  goroutine is recorded as a `typingLoop`, whose deferred call is
  `cleanupTypingTask key taskID`.
-/

namespace Picoclaw

/-! ## Data model -/

/-- The Go struct `typingTask`: sequence id and cancel function. A cancel function is
identified by the number of the context it cancels. -/
structure typingTask where
  id : Nat
  cancel : Nat
deriving DecidableEq, Repr

/-- The fields of `DiscordChannel` (and of the embedded `BaseChannel`) used by the
modelled methods. -/
structure DiscordChannel where
  name : String
  running : Bool
  typingTasks : List (String × typingTask)
  typingSeq : Nat
  ctxCount : Nat
deriving DecidableEq, Repr

/-- The struct `bus.OutboundMessage`. -/
structure OutboundMessage where
  Channel : String
  ChatID : String
  Content : String
  SessionKey : String
  RequestID : String
  IsFinal : Bool
  Control : Bool
deriving DecidableEq, Repr

/-- A typing goroutine launched by `startTyping`, with the values its closure captures. -/
structure typingLoop where
  key : String
  taskID : Nat
  channelID : String
  ctx : Nat
deriving DecidableEq, Repr

/-- Observable steps of the adapter and of the goroutines it launches. `goSend` is the
launch of the send goroutine of `Send`, `channelMessageSend` the platform call that this
goroutine makes, `recvDone` and `ctxDone` the two cases of the select in `Send` (the result
of the platform call was received, the send deadline expired). -/
inductive Effect where
  | addHandler
  | sessionOpen
  | sessionUser
  | sessionClose
  | goSend (channelID message : String)
  | channelMessageSend (channelID message : String)
  | recvDone
  | ctxDone
  | callStopTyping (requestID : String)
  | mapDelete (key : String)
  | cancel (handle : Nat)
deriving DecidableEq, Repr

/-- How the race in `Send` between the send goroutine and the send deadline ends. With
`done err` the goroutine made the platform call and its result `err` was received. With
`timeout ctxErr callAt` the deadline won with context error `ctxErr`; the goroutine, which
is not awaited, makes its platform call when the scheduler lets it, after `callAt` of the
steps that `Send` still takes (0: before the deadline is observed; a number beyond the
remaining steps: after `Send` has returned). -/
inductive sendResult where
  | done (err : Option String)
  | timeout (ctxErr : String) (callAt : Nat)
deriving DecidableEq, Repr

/-- Width of the `uint64` counter `typingSeq`. -/
def uint64Size : Nat := 2 ^ 64

/-! ## The registry map -/

/-- Map read `m[key]` with the comma-ok form: `none` when the key is absent. -/
def mapGet : List (String × typingTask) → String → Option typingTask
  | [], _ => none
  | (k, v) :: rest, key => if k = key then some v else mapGet rest key

/-- The builtin `delete(m, key)`. -/
def mapDelete (m : List (String × typingTask)) (key : String) : List (String × typingTask) :=
  m.filter (fun e => decide (e.1 ≠ key))

/-- Map write `m[key] = v`. -/
def mapSet (m : List (String × typingTask)) (key : String) (v : typingTask) :
    List (String × typingTask) :=
  (key, v) :: mapDelete m key

/-- The adapter as `NewDiscordChannel` builds it: empty registry, counter zero, not running. -/
def NewDiscordChannel : DiscordChannel :=
  { name := "discord", running := false, typingTasks := [], typingSeq := 0, ctxCount := 0 }

/-! ## BaseChannel accessors -/

/-- Modelled from the spec: `BaseChannel.IsRunning` is not among the sources; the adapter
is in the Running state exactly when its running flag is set. -/
def IsRunning (c : DiscordChannel) : Bool := c.running

/-- Modelled from the spec: `BaseChannel.setRunning` is not among the sources; it stores
the running flag that `IsRunning` reads. -/
def setRunning (c : DiscordChannel) (b : Bool) : DiscordChannel := { c with running := b }

/-! ## Typing registry operations -/

/-- The method `typingKey`. -/
def typingKey (c : DiscordChannel) (requestID : String) : String :=
  if requestID = "" then "" else c.name ++ ":req:" ++ requestID

/-- The method `startTyping`: the new adapter state and the goroutine launched, if any. -/
def startTyping (c : DiscordChannel) (requestID channelID : String) :
    DiscordChannel × Option typingLoop :=
  let key := typingKey c requestID
  if key = "" then (c, none)
  else if (mapGet c.typingTasks key).isSome then (c, none)
  else
    let cancel := c.ctxCount
    let taskID := (c.typingSeq + 1) % uint64Size
    ({ c with
        typingTasks := mapSet c.typingTasks key { id := taskID, cancel := cancel }
        typingSeq := taskID
        ctxCount := c.ctxCount + 1 },
      some { key := key, taskID := taskID, channelID := channelID, ctx := cancel })

/-- The method `stopTyping`. -/
def stopTyping (c : DiscordChannel) (requestID : String) : DiscordChannel × List Effect :=
  let key := typingKey c requestID
  if key = "" then (c, [])
  else
    match mapGet c.typingTasks key with
    | some task =>
      ({ c with typingTasks := mapDelete c.typingTasks key },
        [Effect.mapDelete key, Effect.cancel task.cancel])
    | none => (c, [])

/-- The method `cleanupTypingTask`. -/
def cleanupTypingTask (c : DiscordChannel) (key : String) (taskID : Nat) : DiscordChannel :=
  match mapGet c.typingTasks key with
  | some current =>
    if current.id = taskID then { c with typingTasks := mapDelete c.typingTasks key } else c
  | none => c

/-- One iteration of the range loop of `stopAllTyping`: the live map, the cancel
functions collected so far, the deletions made so far. -/
def stopAllStep (acc : List (String × typingTask) × List Nat × List Effect)
    (e : String × typingTask) : List (String × typingTask) × List Nat × List Effect :=
  (mapDelete acc.1 e.1, acc.2.1 ++ [e.2.cancel], acc.2.2 ++ [Effect.mapDelete e.1])

/-- The locked part of `stopAllTyping`: the range loop over the registry. -/
def stopAllLoop (m : List (String × typingTask)) :
    List (String × typingTask) × List Nat × List Effect :=
  m.foldl stopAllStep (m, [], [])

/-- The method `stopAllTyping`: the deletions are made under the lock, the collected
cancel functions are called after it is released. -/
def stopAllTyping (c : DiscordChannel) : DiscordChannel × List Effect :=
  let r := stopAllLoop c.typingTasks
  ({ c with typingTasks := r.1 }, r.2.2 ++ r.2.1.map Effect.cancel)

/-! ## Lifecycle and send path -/

/-- The method `Start`; `openErr` and `userErr` are the results of `session.Open()` and
of `session.User("@me")`. -/
def Start (c : DiscordChannel) (openErr userErr : Option String) :
    DiscordChannel × Option String × List Effect :=
  match openErr with
  | some e =>
    (c, some ("failed to open discord session: " ++ e), [Effect.addHandler, Effect.sessionOpen])
  | none =>
    let c1 := setRunning c true
    match userErr with
    | some e =>
      (c1, some ("failed to get bot user: " ++ e),
        [Effect.addHandler, Effect.sessionOpen, Effect.sessionUser])
    | none => (c1, none, [Effect.addHandler, Effect.sessionOpen, Effect.sessionUser])

/-- The method `Stop`; `closeErr` is the result of `session.Close()`. -/
def Stop (c : DiscordChannel) (closeErr : Option String) :
    DiscordChannel × Option String × List Effect :=
  let c1 := setRunning c false
  let r := stopAllTyping c1
  match closeErr with
  | some e =>
    (r.1, some ("failed to close discord session: " ++ e), r.2 ++ [Effect.sessionClose])
  | none => (r.1, none, r.2 ++ [Effect.sessionClose])

/-- A step of another goroutine placed after the first `k` steps of a trace. -/
def scheduleAt (k : Nat) (e : Effect) (l : List Effect) : List Effect :=
  l.take k ++ e :: l.drop k

/-- The deferred function of `Send`: when the envelope is final it calls `stopTyping` for
the request id of the envelope. The new state and the steps taken. -/
def deferredStop (c : DiscordChannel) (msg : OutboundMessage) : DiscordChannel × List Effect :=
  if msg.IsFinal then
    ((stopTyping c msg.RequestID).1,
      Effect.callStopTyping msg.RequestID :: (stopTyping c msg.RequestID).2)
  else (c, [])

/-- The error that the body of `Send` returns once the guards are passed. -/
def sendBody (msg : OutboundMessage) (platform : sendResult) : Option String :=
  if msg.Control then none
  else
    match platform with
    | sendResult.done none => none
    | sendResult.done (some e) => some ("failed to send discord message: " ++ e)
    | sendResult.timeout e _ => some ("send message timeout: " ++ e)

/-- The steps of an accepted `Send` and of its send goroutine, given the steps `deferred`
of the deferred function, which runs when the body has returned. A control envelope
returns before anything is launched. Otherwise the send goroutine is launched and the
select awaited: when the result is received the platform call has been made before; on
timeout the platform call of the goroutine falls where the scheduler puts it. -/
def sendTrace (msg : OutboundMessage) (platform : sendResult) (deferred : List Effect) :
    List Effect :=
  if msg.Control then deferred
  else
    match platform with
    | sendResult.done _ =>
      [Effect.goSend msg.ChatID msg.Content, Effect.channelMessageSend msg.ChatID msg.Content,
        Effect.recvDone] ++ deferred
    | sendResult.timeout _ callAt =>
      Effect.goSend msg.ChatID msg.Content ::
        scheduleAt callAt (Effect.channelMessageSend msg.ChatID msg.Content)
          (Effect.ctxDone :: deferred)

/-- The method `Send`: new state, returned error (`none` for a nil error), and the steps
taken by `Send` and by the send goroutine it launches. -/
def Send (c : DiscordChannel) (msg : OutboundMessage) (platform : sendResult) :
    DiscordChannel × Option String × List Effect :=
  if !IsRunning c then (c, some "discord bot not running", [])
  else if msg.ChatID = "" then (c, some "channel ID is empty", [])
  else
    ((deferredStop c msg).1, sendBody msg platform, sendTrace msg platform (deferredStop c msg).2)

/-! ## Inbound pipeline -/

/-- The function `appendContent`. -/
def appendContent (content suffix : String) : String :=
  if content = "" then suffix else content ++ "\n" ++ suffix

/-- The fields of `discordgo.User` read by `handleMessage`. -/
structure User where
  ID : String
  Username : String
  Discriminator : String
deriving DecidableEq, Repr

/-- The fields of `discordgo.MessageAttachment` read by `handleMessage`. -/
structure MessageAttachment where
  URL : String
  Filename : String
  ContentType : String
deriving DecidableEq, Repr

/-- The fields of `discordgo.MessageCreate` read by `handleMessage`; a nil `Author` is
`none`. -/
structure MessageCreate where
  ID : String
  ChannelID : String
  GuildID : String
  Content : String
  Author : Option User
  Attachments : List MessageAttachment
deriving DecidableEq, Repr

/-- The transcriber capability: the result of `IsAvailable()` and of `Transcribe` on a
local path (the recognised text, or the error of a failed or timed out call). -/
structure GroqTranscriber where
  IsAvailable : Bool
  Transcribe : String → Except String String

/-- The collaborators of `handleMessage` that live outside the sources: the identity of
the adapter in the session state, the allow-list check of `BaseChannel`, the audio
classifier and the downloader of `utils` (an empty path is a failed download), and the
configured transcriber (`none` for a nil pointer). -/
structure Collaborators where
  selfID : String
  IsAllowed : String → Bool
  IsAudioFile : String → String → Bool
  DownloadFile : String → String → String
  transcriber : Option GroqTranscriber

/-- The arguments of the call `c.HandleMessage(...)` by which `handleMessage` hands an
event to the bus. -/
structure BusHandoff where
  senderID : String
  chatID : String
  content : String
  media : List String
  metadata : List (String × String)
deriving DecidableEq, Repr

/-- The local variables that the attachment loop of `handleMessage` updates, and the calls
of `downloadAttachment` made so far (remote URL and file name). -/
structure LoopVars where
  content : String
  mediaPaths : List String
  localFiles : List String
  downloads : List (String × String)
deriving DecidableEq, Repr

/-- The text produced for a downloaded audio attachment. -/
def transcribedText (env : Collaborators) (attachment : MessageAttachment)
    (localPath : String) : String :=
  match env.transcriber with
  | none => "[audio: " ++ attachment.Filename ++ "]"
  | some t =>
    if t.IsAvailable then
      match t.Transcribe localPath with
      | Except.error _ => "[audio: " ++ attachment.Filename ++ " (transcription failed)]"
      | Except.ok text => "[audio transcription: " ++ text ++ "]"
    else "[audio: " ++ attachment.Filename ++ "]"

/-- One iteration of the attachment loop of `handleMessage`. -/
def attachmentStep (env : Collaborators) (v : LoopVars) (attachment : MessageAttachment) :
    LoopVars :=
  if env.IsAudioFile attachment.Filename attachment.ContentType then
    let localPath := env.DownloadFile attachment.URL attachment.Filename
    if localPath ≠ "" then
      { v with
          downloads := v.downloads ++ [(attachment.URL, attachment.Filename)]
          localFiles := v.localFiles ++ [localPath]
          content := appendContent v.content (transcribedText env attachment localPath) }
    else
      { v with
          downloads := v.downloads ++ [(attachment.URL, attachment.Filename)]
          mediaPaths := v.mediaPaths ++ [attachment.URL]
          content := appendContent v.content ("[attachment: " ++ attachment.URL ++ "]") }
  else
    { v with
        mediaPaths := v.mediaPaths ++ [attachment.URL]
        content := appendContent v.content ("[attachment: " ++ attachment.URL ++ "]") }

/-- What one run of `handleMessage` leaves behind: the adapter state, the hand-off to the
bus (if any), the typing goroutine launched (if any), the temporary files removed by the
deferred cleanup, and the downloads it made (remote URL and file name). -/
structure HandleResult where
  channel : DiscordChannel
  handed : Option BusHandoff
  loop : Option typingLoop
  removed : List String
  downloads : List (String × String)
deriving DecidableEq, Repr

/-- The method `handleMessage`; a nil event is `none`. -/
def handleMessage (c : DiscordChannel) (env : Collaborators) (m : Option MessageCreate) :
    HandleResult :=
  match m with
  | none => { channel := c, handed := none, loop := none, removed := [], downloads := [] }
  | some m =>
    match m.Author with
    | none => { channel := c, handed := none, loop := none, removed := [], downloads := [] }
    | some author =>
      if author.ID = env.selfID then
        { channel := c, handed := none, loop := none, removed := [], downloads := [] }
      else if !env.IsAllowed author.ID then
        { channel := c, handed := none, loop := none, removed := [], downloads := [] }
      else
        let senderID := author.ID
        let senderName :=
          if author.Discriminator ≠ "" ∧ author.Discriminator ≠ "0" then
            author.Username ++ "#" ++ author.Discriminator
          else author.Username
        let v := m.Attachments.foldl (attachmentStep env)
          { content := m.Content, mediaPaths := [], localFiles := [], downloads := [] }
        if v.content = "" ∧ v.mediaPaths.length = 0 then
          { channel := c, handed := none, loop := none, removed := v.localFiles,
            downloads := v.downloads }
        else
          let content := if v.content = "" then "[media only]" else v.content
          let metadata : List (String × String) :=
            [("message_id", m.ID), ("request_id", m.ID), ("user_id", senderID),
              ("username", author.Username), ("display_name", senderName),
              ("guild_id", m.GuildID), ("channel_id", m.ChannelID),
              ("is_dm", if m.GuildID = "" then "true" else "false")]
          let r := startTyping c m.ID m.ChannelID
          { channel := r.1
            handed := some
              { senderID := senderID, chatID := m.ChannelID, content := content,
                media := v.mediaPaths, metadata := metadata }
            loop := r.2
            removed := v.localFiles
            downloads := v.downloads }

/-! ## Runs of the typing registry -/

/-- A call on the typing registry. -/
inductive Op where
  | start (requestID channelID : String)
  | stop (requestID : String)
  | stopAll
  | cleanup (key : String) (taskID : Nat)
deriving DecidableEq, Repr

/-- The effect of one registry call: the new state and the goroutine it launched. -/
def step (c : DiscordChannel) : Op → DiscordChannel × Option typingLoop
  | Op.start requestID channelID => startTyping c requestID channelID
  | Op.stop requestID => ((stopTyping c requestID).1, none)
  | Op.stopAll => ((stopAllTyping c).1, none)
  | Op.cleanup key taskID => (cleanupTypingTask c key taskID, none)

/-- A sequence of registry calls: the final state and the goroutines launched, oldest
first. -/
def run (c : DiscordChannel) : List Op → DiscordChannel × List typingLoop
  | [] => (c, [])
  | op :: ops =>
    let r := step c op
    let rest := run r.1 ops
    (rest.1, r.2.toList ++ rest.2)

/-! ## Auxiliary notions used in the statements -/

/-- The number of entries stored under a key. -/
def entryCount (m : List (String × typingTask)) (key : String) : Nat :=
  (m.filter (fun e => decide (e.1 = key))).length


/-- Whether an effect is a platform send call. -/
def isPlatformSend : Effect → Bool
  | Effect.channelMessageSend _ _ => true
  | _ => false

/-- Whether an effect is a call of `stopTyping`. -/
def isStopTypingCall : Effect → Bool
  | Effect.callStopTyping _ => true
  | _ => false

/-- Whether an effect is an invocation of a cancel function. -/
def isCancel : Effect → Bool
  | Effect.cancel _ => true
  | _ => false

/-- Sample collaborators: the adapter is user `bot`, every sender is allowed, files named
`note.ogg` are audio, every download succeeds into `/tmp/` followed by the file name, and
the transcriber is the given one. -/
def sampleCollaborators (transcriber : Option GroqTranscriber) : Collaborators :=
  { selfID := "bot"
    IsAllowed := fun _ => true
    IsAudioFile := fun filename _ => decide (filename = "note.ogg")
    DownloadFile := fun _ filename => "/tmp/" ++ filename
    transcriber := transcriber }

/-- Sample event: a message without text, from the given author, with one attachment. -/
def sampleEvent (authorID : String) (attachment : MessageAttachment) : MessageCreate :=
  { ID := "m1", ChannelID := "chan", GuildID := "guild", Content := ""
    Author := some { ID := authorID, Username := "alice", Discriminator := "0" }
    Attachments := [attachment] }

/-- A run that wraps the counter: request `a` is started and stopped `2^64` times and
then started once more. -/
def wrapOps : List Op :=
  [Op.start "a" "chan", Op.stop "a"] ++
    ((List.replicate (2 ^ 64 - 1) [Op.start "a" "chan", Op.stop "a"]).flatten ++
      [Op.start "a" "chan"])

/-- The adapter with an empty registry after `k` sessions, when the counter reads `s`. -/
def idleChannel (s k : Nat) : DiscordChannel :=
  { name := "discord", running := false, typingTasks := [], typingSeq := s, ctxCount := k }

/-! ## Facts about the registry map -/

theorem mapDelete_cons_eq (k : String) (v : typingTask) (rest : List (String × typingTask)) :
    mapDelete ((k, v) :: rest) k = mapDelete rest k := by
  simp [mapDelete, List.filter_cons]

theorem mapDelete_cons_ne (k key : String) (v : typingTask) (rest : List (String × typingTask))
    (h : k ≠ key) : mapDelete ((k, v) :: rest) key = (k, v) :: mapDelete rest key := by
  simp [mapDelete, List.filter_cons, h]

theorem mapGet_cons_eq (k : String) (v : typingTask) (rest : List (String × typingTask)) :
    mapGet ((k, v) :: rest) k = some v := by
  simp [mapGet]

theorem mapGet_cons_ne (k key : String) (v : typingTask) (rest : List (String × typingTask))
    (h : k ≠ key) : mapGet ((k, v) :: rest) key = mapGet rest key := by
  simp [mapGet, h]

theorem mapGet_mapDelete_self (m : List (String × typingTask)) (key : String) :
    mapGet (mapDelete m key) key = none := by
  induction m with
  | nil => rfl
  | cons e rest ih =>
    obtain ⟨k, v⟩ := e
    by_cases h : k = key
    · subst h
      rw [mapDelete_cons_eq]
      exact ih
    · rw [mapDelete_cons_ne k key v rest h, mapGet_cons_ne k key v _ h]
      exact ih

theorem mapGet_mapDelete_ne (m : List (String × typingTask)) (key other : String)
    (h : other ≠ key) : mapGet (mapDelete m key) other = mapGet m other := by
  induction m with
  | nil => rfl
  | cons e rest ih =>
    obtain ⟨k, v⟩ := e
    by_cases hk : k = key
    · subst hk
      rw [mapDelete_cons_eq, mapGet_cons_ne k other v rest (fun hko => h hko.symm)]
      exact ih
    · rw [mapDelete_cons_ne k key v rest hk]
      by_cases hko : k = other
      · subst hko
        rw [mapGet_cons_eq, mapGet_cons_eq]
      · rw [mapGet_cons_ne k other v _ hko, mapGet_cons_ne k other v _ hko]
        exact ih

theorem mapDelete_absent (m : List (String × typingTask)) (key : String)
    (h : mapGet m key = none) : mapDelete m key = m := by
  induction m with
  | nil => rfl
  | cons e rest ih =>
    obtain ⟨k, v⟩ := e
    by_cases hk : k = key
    · subst hk
      rw [mapGet_cons_eq] at h
      exact absurd h (by simp)
    · rw [mapGet_cons_ne k key v rest hk] at h
      rw [mapDelete_cons_ne k key v rest hk, ih h]

theorem mem_mapDelete (m : List (String × typingTask)) (key : String)
    (e : String × typingTask) : e ∈ mapDelete m key ↔ e ∈ m ∧ e.1 ≠ key := by
  simp [mapDelete, List.mem_filter]

theorem mapGet_mapSet_self (m : List (String × typingTask)) (key : String) (v : typingTask) :
    mapGet (mapSet m key v) key = some v := by
  simp [mapSet, mapGet]

theorem mapGet_mapSet_ne (m : List (String × typingTask)) (key other : String)
    (v : typingTask) (h : other ≠ key) : mapGet (mapSet m key v) other = mapGet m other := by
  have hne : ¬ key = other := fun hko => h hko.symm
  simp [mapSet, mapGet, hne, mapGet_mapDelete_ne m key other h]

theorem entryCount_mapDelete_self (m : List (String × typingTask)) (key : String) :
    entryCount (mapDelete m key) key = 0 := by
  simp [entryCount, mapDelete, List.filter_filter]

theorem entryCount_eq_zero_of_absent (m : List (String × typingTask)) (key : String)
    (h : mapGet m key = none) : entryCount m key = 0 := by
  rw [← mapDelete_absent m key h]
  exact entryCount_mapDelete_self m key

theorem entryCount_of_present (m : List (String × typingTask)) (key : String)
    (hwf : (m.map Prod.fst).Nodup) (h : (mapGet m key).isSome) : entryCount m key = 1 := by
  induction m with
  | nil => simp [mapGet] at h
  | cons e rest ih =>
    obtain ⟨k, v⟩ := e
    simp only [List.map_cons, List.nodup_cons] at hwf
    by_cases hk : k = key
    · subst hk
      have hrest : mapGet rest k = none := by
        cases hg : mapGet rest k with
        | none => rfl
        | some t =>
          exfalso
          apply hwf.1
          clear ih hwf h
          induction rest with
          | nil => simp [mapGet] at hg
          | cons e2 rest2 ih2 =>
            obtain ⟨k2, v2⟩ := e2
            by_cases hk2 : k2 = k
            · simp [hk2]
            · simp only [mapGet, hk2, if_false] at hg
              simp [ih2 hg]
      have := entryCount_eq_zero_of_absent rest k hrest
      simp only [entryCount] at this ⊢
      simp [List.filter_cons, this]
    · simp only [mapGet, hk, if_false] at h
      have := ih hwf.2 h
      simp only [entryCount] at this ⊢
      simp [List.filter_cons, hk, this]

theorem nodup_keys_mapDelete (m : List (String × typingTask)) (key : String)
    (hwf : (m.map Prod.fst).Nodup) : ((mapDelete m key).map Prod.fst).Nodup := by
  unfold mapDelete
  exact (List.Nodup.sublist ((List.filter_sublist m).map Prod.fst) hwf)

theorem nodup_keys_mapSet (m : List (String × typingTask)) (key : String) (v : typingTask)
    (hwf : (m.map Prod.fst).Nodup) : ((mapSet m key v).map Prod.fst).Nodup := by
  simp only [mapSet, List.map_cons, List.nodup_cons]
  refine ⟨?_, nodup_keys_mapDelete m key hwf⟩
  intro hmem
  obtain ⟨e, he, hek⟩ := List.mem_map.1 hmem
  exact ((mem_mapDelete m key e).1 he).2 hek

/-! ## Facts about `typingKey` -/

theorem typingKey_ne_empty (c : DiscordChannel) (requestID : String) (h : requestID ≠ "") :
    typingKey c requestID ≠ "" := by
  simp only [typingKey, h, if_false]
  intro hk
  have := congrArg String.length hk
  simp [String.length_append] at this
  have h2 : (":req:" : String).length = 5 := by decide
  omega

theorem typingKey_injective (c : DiscordChannel) (r1 r2 : String) (h1 : r1 ≠ "")
    (h : r2 ≠ r1) : typingKey c r2 ≠ typingKey c r1 := by
  by_cases h2 : r2 = ""
  · subst h2
    have := typingKey_ne_empty c r1 h1
    simpa [typingKey] using fun hh => this hh.symm
  · simp only [typingKey, h1, h2, if_false]
    intro hk
    apply h
    have := String.ext_iff.1 hk
    simp only [String.data_append, List.append_assoc] at this
    exact String.ext (List.append_cancel_left (List.append_cancel_left this))

/-! ## stopTyping -/

theorem stopTyping_present (c : DiscordChannel) (requestID : String) (task : typingTask)
    (hr : requestID ≠ "") (h : mapGet c.typingTasks (typingKey c requestID) = some task) :
    stopTyping c requestID =
      ({ c with typingTasks := mapDelete c.typingTasks (typingKey c requestID) },
        [Effect.mapDelete (typingKey c requestID), Effect.cancel task.cancel]) := by
  simp [stopTyping, typingKey_ne_empty c requestID hr, h]

theorem stopTyping_absent (c : DiscordChannel) (requestID : String)
    (h : requestID = "" ∨ mapGet c.typingTasks (typingKey c requestID) = none) :
    stopTyping c requestID = (c, []) := by
  rcases h with h | h
  · simp [stopTyping, typingKey, h]
  · by_cases hk : typingKey c requestID = ""
    · simp [stopTyping, hk]
    · simp [stopTyping, hk, h]

theorem typingKey_congr (c d : DiscordChannel) (requestID : String) (h : d.name = c.name) :
    typingKey d requestID = typingKey c requestID := by
  simp [typingKey, h]

theorem stopTyping_name (c : DiscordChannel) (requestID : String) :
    (stopTyping c requestID).1.name = c.name := by
  by_cases hr : requestID = ""
  · rw [stopTyping_absent c requestID (Or.inl hr)]
  · cases hg : mapGet c.typingTasks (typingKey c requestID) with
    | none => rw [stopTyping_absent c requestID (Or.inr hg)]
    | some task => rw [stopTyping_present c requestID task hr hg]

/-- C5. `stopTyping requestID`: when a session is registered under the key of a non-empty
`requestID`, the call deletes that key and then invokes the cancel function of that
session, once; the entries that remain are exactly the entries stored under other keys,
so the session of every other request id is as before. When `requestID` is empty or no
session is registered under its key, the adapter is unchanged and nothing is invoked; a
second `stopTyping` for the same id therefore does nothing. -/
theorem stopTyping_removes_exactly_its_session (c : DiscordChannel) (requestID : String) :
    (∀ task, requestID ≠ "" → mapGet c.typingTasks (typingKey c requestID) = some task →
      (stopTyping c requestID).2 =
          [Effect.mapDelete (typingKey c requestID), Effect.cancel task.cancel]
        ∧ mapGet (stopTyping c requestID).1.typingTasks (typingKey c requestID) = none
        ∧ (∀ e, e ∈ (stopTyping c requestID).1.typingTasks ↔
            e ∈ c.typingTasks ∧ e.1 ≠ typingKey c requestID)
        ∧ (∀ other, other ≠ requestID →
            mapGet (stopTyping c requestID).1.typingTasks (typingKey c other) =
              mapGet c.typingTasks (typingKey c other)))
    ∧ ((requestID = "" ∨ mapGet c.typingTasks (typingKey c requestID) = none) →
        stopTyping c requestID = (c, []))
    ∧ stopTyping (stopTyping c requestID).1 requestID = ((stopTyping c requestID).1, []) := by
  refine ⟨?_, stopTyping_absent c requestID, ?_⟩
  · intro task hr h
    rw [stopTyping_present c requestID task hr h]
    refine ⟨rfl, mapGet_mapDelete_self _ _, fun e => mem_mapDelete _ _ e, ?_⟩
    intro other hne
    exact mapGet_mapDelete_ne _ _ _ (typingKey_injective c requestID other hr hne)
  · apply stopTyping_absent
    by_cases hr : requestID = ""
    · exact Or.inl hr
    · right
      rw [typingKey_congr c _ requestID (stopTyping_name c requestID)]
      cases hg : mapGet c.typingTasks (typingKey c requestID) with
      | none => rw [stopTyping_absent c requestID (Or.inr hg)]; exact hg
      | some task =>
        rw [stopTyping_present c requestID task hr hg]
        exact mapGet_mapDelete_self _ _

/-- Witness for C5: two requests on one conversation; stopping the first leaves the second. -/
theorem stopTyping_removes_exactly_its_session_witness :
    (stopTyping (startTyping (startTyping NewDiscordChannel "r1" "chan").1 "r2" "chan").1 "r1").2
        = [Effect.mapDelete "discord:req:r1", Effect.cancel 0]
      ∧ mapGet (stopTyping
          (startTyping (startTyping NewDiscordChannel "r1" "chan").1 "r2" "chan").1
          "r1").1.typingTasks "discord:req:r2" = some { id := 2, cancel := 1 } := by
  have h := (stopTyping_removes_exactly_its_session
    (startTyping (startTyping NewDiscordChannel "r1" "chan").1 "r2" "chan").1 "r1").1
    { id := 1, cancel := 0 } (by decide) (by decide)
  refine ⟨h.1, ?_⟩
  have h2 := h.2.2.2 "r2" (by decide)
  rw [show typingKey (startTyping (startTyping NewDiscordChannel "r1" "chan").1 "r2" "chan").1
    "r2" = "discord:req:r2" by decide] at h2
  rw [h2]
  decide

/-! ## startTyping -/

theorem startTyping_registered (c : DiscordChannel) (requestID channelID : String)
    (h : (mapGet c.typingTasks (typingKey c requestID)).isSome) :
    startTyping c requestID channelID = (c, none) := by
  by_cases hk : typingKey c requestID = ""
  · simp [startTyping, hk]
  · simp [startTyping, hk, h]

theorem startTyping_fresh (c : DiscordChannel) (requestID channelID : String)
    (hr : requestID ≠ "") (h : mapGet c.typingTasks (typingKey c requestID) = none) :
    startTyping c requestID channelID =
      ({ c with
          typingTasks := mapSet c.typingTasks (typingKey c requestID)
            { id := (c.typingSeq + 1) % uint64Size, cancel := c.ctxCount }
          typingSeq := (c.typingSeq + 1) % uint64Size
          ctxCount := c.ctxCount + 1 },
        some { key := typingKey c requestID, taskID := (c.typingSeq + 1) % uint64Size,
               channelID := channelID, ctx := c.ctxCount }) := by
  simp [startTyping, typingKey_ne_empty c requestID hr, h]

theorem startTyping_empty (c : DiscordChannel) (channelID : String) :
    startTyping c "" channelID = (c, none) := by
  simp [startTyping, typingKey]

theorem startTyping_name (c : DiscordChannel) (requestID channelID : String) :
    (startTyping c requestID channelID).1.name = c.name := by
  by_cases hr : requestID = ""
  · subst hr
    rw [startTyping_empty]
  · cases hg : mapGet c.typingTasks (typingKey c requestID) with
    | none => rw [startTyping_fresh c requestID channelID hr hg]
    | some task => rw [startTyping_registered c requestID channelID (by simp [hg])]

theorem startTyping_isSome (c : DiscordChannel) (requestID channelID : String)
    (hr : requestID ≠ "") :
    (mapGet (startTyping c requestID channelID).1.typingTasks (typingKey c requestID)).isSome := by
  cases hg : mapGet c.typingTasks (typingKey c requestID) with
  | none =>
    rw [startTyping_fresh c requestID channelID hr hg]
    simp [mapGet_mapSet_self]
  | some task =>
    rw [startTyping_registered c requestID channelID (by simp [hg])]
    simp [hg]

theorem startTyping_nodup_keys (c : DiscordChannel) (requestID channelID : String)
    (hwf : (c.typingTasks.map Prod.fst).Nodup) :
    ((startTyping c requestID channelID).1.typingTasks.map Prod.fst).Nodup := by
  by_cases hr : requestID = ""
  · subst hr
    rw [startTyping_empty]
    exact hwf
  · cases hg : mapGet c.typingTasks (typingKey c requestID) with
    | none =>
      rw [startTyping_fresh c requestID channelID hr hg]
      exact nodup_keys_mapSet _ _ _ hwf
    | some task =>
      rw [startTyping_registered c requestID channelID (by simp [hg])]
      exact hwf

/-- C2. Two `startTyping` calls in a row for one non-empty `requestID`: the second call
returns the state of the first unchanged (registry, `typingSeq` and all) and launches no
goroutine, so the two calls launch at most one goroutine, and exactly one, carrying the
sequence id `typingSeq + 1` (modulo `2^64`) that is also stored in the entry and in the
counter, when the key was not registered before; afterwards the key is registered, under
exactly one entry when the registry is a map (pairwise distinct keys, as in every
reachable state). More generally `startTyping` on a registered key returns the state
unchanged and launches nothing. -/
theorem startTyping_twice_is_once (c : DiscordChannel) (requestID ch1 ch2 : String)
    (hr : requestID ≠ "") :
    startTyping (startTyping c requestID ch1).1 requestID ch2
        = ((startTyping c requestID ch1).1, none)
      ∧ ((startTyping c requestID ch1).2.toList ++
          (startTyping (startTyping c requestID ch1).1 requestID ch2).2.toList).length ≤ 1
      ∧ (mapGet (startTyping (startTyping c requestID ch1).1 requestID ch2).1.typingTasks
          (typingKey c requestID)).isSome
      ∧ ((c.typingTasks.map Prod.fst).Nodup →
          entryCount (startTyping (startTyping c requestID ch1).1 requestID ch2).1.typingTasks
            (typingKey c requestID) = 1)
      ∧ (mapGet c.typingTasks (typingKey c requestID) = none →
          (startTyping c requestID ch1).2.toList ++
              (startTyping (startTyping c requestID ch1).1 requestID ch2).2.toList
            = [{ key := typingKey c requestID, taskID := (c.typingSeq + 1) % uint64Size,
                 channelID := ch1, ctx := c.ctxCount }]
          ∧ mapGet (startTyping (startTyping c requestID ch1).1 requestID ch2).1.typingTasks
              (typingKey c requestID)
            = some { id := (c.typingSeq + 1) % uint64Size, cancel := c.ctxCount }
          ∧ (startTyping (startTyping c requestID ch1).1 requestID ch2).1.typingSeq
            = (c.typingSeq + 1) % uint64Size)
      ∧ (∀ (d : DiscordChannel) (r ch : String),
          (mapGet d.typingTasks (typingKey d r)).isSome → startTyping d r ch = (d, none)) := by
  have hsome := startTyping_isSome c requestID ch1 hr
  have hkey : typingKey (startTyping c requestID ch1).1 requestID = typingKey c requestID :=
    typingKey_congr c _ requestID (startTyping_name c requestID ch1)
  have hsecond : startTyping (startTyping c requestID ch1).1 requestID ch2
      = ((startTyping c requestID ch1).1, none) :=
    startTyping_registered _ requestID ch2 (by rw [hkey]; exact hsome)
  refine ⟨hsecond, ?_, ?_, ?_, ?_, fun d r ch h => startTyping_registered d r ch h⟩
  · rw [hsecond]
    cases (startTyping c requestID ch1).2 <;> simp
  · rw [hsecond]
    exact hsome
  · intro hwf
    rw [hsecond]
    exact entryCount_of_present _ _ (startTyping_nodup_keys c requestID ch1 hwf) hsome
  · intro habs
    rw [hsecond, startTyping_fresh c requestID ch1 hr habs]
    refine ⟨by simp, mapGet_mapSet_self _ _ _, rfl⟩

/-- Witness for C2: the same request started twice on a fresh adapter. -/
theorem startTyping_twice_is_once_witness :
    startTyping (startTyping NewDiscordChannel "r1" "chan").1 "r1" "chan"
        = ((startTyping NewDiscordChannel "r1" "chan").1, none)
      ∧ entryCount
          (startTyping (startTyping NewDiscordChannel "r1" "chan").1 "r1" "chan").1.typingTasks
          (typingKey NewDiscordChannel "r1") = 1 :=
  ⟨(startTyping_twice_is_once NewDiscordChannel "r1" "chan" "chan" (by decide)).1,
    (startTyping_twice_is_once NewDiscordChannel "r1" "chan" "chan" (by decide)).2.2.2.1
      (by decide)⟩

/-! ## stopAllTyping and Stop -/

theorem foldl_stopAllStep (l live : List (String × typingTask)) (cs : List Nat)
    (ds : List Effect) :
    l.foldl stopAllStep (live, cs, ds) =
      (l.foldl (fun acc e => mapDelete acc e.1) live,
        cs ++ l.map (fun e => e.2.cancel),
        ds ++ l.map (fun e => Effect.mapDelete e.1)) := by
  induction l generalizing live cs ds with
  | nil => simp
  | cons e rest ih =>
    simp only [List.foldl_cons, List.map_cons]
    rw [show stopAllStep (live, cs, ds) e
        = (mapDelete live e.1, cs ++ [e.2.cancel], ds ++ [Effect.mapDelete e.1]) from rfl, ih]
    simp

theorem mem_foldl_mapDelete (l live : List (String × typingTask)) (x : String × typingTask) :
    x ∈ l.foldl (fun acc e => mapDelete acc e.1) live ↔
      x ∈ live ∧ ∀ e ∈ l, x.1 ≠ e.1 := by
  induction l generalizing live with
  | nil => simp
  | cons e rest ih =>
    simp only [List.foldl_cons, List.mem_cons, forall_eq_or_imp]
    rw [ih, mem_mapDelete]
    tauto

theorem stopAllLoop_eq (m : List (String × typingTask)) :
    stopAllLoop m =
      ([], m.map (fun e => e.2.cancel), m.map (fun e => Effect.mapDelete e.1)) := by
  unfold stopAllLoop
  rw [foldl_stopAllStep]
  have hnil : m.foldl (fun acc e => mapDelete acc e.1) m = [] := by
    apply List.eq_nil_iff_forall_not_mem.2
    intro x hx
    have := (mem_foldl_mapDelete m m x).1 hx
    exact this.2 x this.1 rfl
  simp [hnil]

theorem stopAllTyping_eq (c : DiscordChannel) :
    stopAllTyping c =
      ({ c with typingTasks := [] },
        c.typingTasks.map (fun e => Effect.mapDelete e.1) ++
          c.typingTasks.map (fun e => Effect.cancel e.2.cancel)) := by
  unfold stopAllTyping
  simp [stopAllLoop_eq, List.map_map, Function.comp_def]

theorem count_cancel_map_mapDelete (m : List (String × typingTask)) (h : Nat) :
    (m.map (fun e => Effect.mapDelete e.1)).count (Effect.cancel h) = 0 := by
  apply List.count_eq_zero.2
  intro hmem
  obtain ⟨e, _, he⟩ := List.mem_map.1 hmem
  cases he

theorem count_cancel_map_cancel (m : List (String × typingTask)) (h : Nat) :
    (m.map (fun e => Effect.cancel e.2.cancel)).count (Effect.cancel h)
      = (m.map (fun e => e.2.cancel)).count h := by
  induction m with
  | nil => rfl
  | cons e rest ih =>
    simp only [List.map_cons, List.count_cons, ih]
    by_cases hh : e.2.cancel = h
    · simp [hh]
    · have : ¬ (Effect.cancel e.2.cancel = Effect.cancel h) := fun hc => hh (by cases hc; rfl)
      simp [hh, this]

/-- C4. `stopAllTyping` on a registry of N sessions leaves the registry empty; its trace
is the N deletions followed by N cancel invocations, one per session and in the same
order, so every cancel function is invoked after the registry has been drained and each
handle is invoked as often as it is registered (once, for a handle held by one session).
`Stop` clears the running flag, performs exactly this and then closes the session,
whether or not closing fails. -/
theorem stopAllTyping_drains_then_cancels (c : DiscordChannel) :
    (stopAllTyping c).1.typingTasks = []
      ∧ (stopAllTyping c).2 =
          c.typingTasks.map (fun e => Effect.mapDelete e.1) ++
            c.typingTasks.map (fun e => Effect.cancel e.2.cancel)
      ∧ ((stopAllTyping c).2.filter isCancel).length = c.typingTasks.length
      ∧ (∀ h, (stopAllTyping c).2.count (Effect.cancel h)
          = (c.typingTasks.map (fun e => e.2.cancel)).count h)
      ∧ (∀ closeErr, (Stop c closeErr).1.typingTasks = []
          ∧ IsRunning (Stop c closeErr).1 = false
          ∧ (Stop c closeErr).2.2 =
              c.typingTasks.map (fun e => Effect.mapDelete e.1) ++
                c.typingTasks.map (fun e => Effect.cancel e.2.cancel) ++
                [Effect.sessionClose]) := by
  refine ⟨by rw [stopAllTyping_eq], by rw [stopAllTyping_eq], ?_, ?_, ?_⟩
  · rw [stopAllTyping_eq]
    simp only [List.filter_append]
    have h1 : (c.typingTasks.map (fun e => Effect.mapDelete e.1)).filter isCancel = [] := by
      apply List.filter_eq_nil_iff.2
      intro a ha
      obtain ⟨e, _, he⟩ := List.mem_map.1 ha
      subst he
      simp [isCancel]
    have h2 : (c.typingTasks.map (fun e => Effect.cancel e.2.cancel)).filter isCancel
        = c.typingTasks.map (fun e => Effect.cancel e.2.cancel) := by
      apply List.filter_eq_self.2
      intro a ha
      obtain ⟨e, _, he⟩ := List.mem_map.1 ha
      subst he
      simp [isCancel]
    rw [h1, h2]
    simp
  · intro h
    rw [stopAllTyping_eq]
    simp only [List.count_append, count_cancel_map_mapDelete, count_cancel_map_cancel]
    omega
  · intro closeErr
    cases closeErr <;> simp [Stop, stopAllTyping_eq, setRunning, IsRunning]

/-! ## Send -/

theorem sendBody_control (msg : OutboundMessage) (platform : sendResult)
    (h : msg.Control = true) : sendBody msg platform = none := by
  simp [sendBody, h]

theorem sendTrace_control (msg : OutboundMessage) (platform : sendResult)
    (deferred : List Effect) (h : msg.Control = true) :
    sendTrace msg platform deferred = deferred := by
  simp [sendTrace, h]

theorem stopTyping_trace_filters (c : DiscordChannel) (requestID : String) :
    (stopTyping c requestID).2.filter isStopTypingCall = []
      ∧ (stopTyping c requestID).2.filter isPlatformSend = [] := by
  by_cases hr : requestID = ""
  · rw [stopTyping_absent c requestID (Or.inl hr)]
    exact ⟨rfl, rfl⟩
  · cases hg : mapGet c.typingTasks (typingKey c requestID) with
    | none =>
      rw [stopTyping_absent c requestID (Or.inr hg)]
      exact ⟨rfl, rfl⟩
    | some task =>
      rw [stopTyping_present c requestID task hr hg]
      exact ⟨rfl, rfl⟩

theorem filter_scheduleAt_of_false (p : Effect → Bool) (k : Nat) (e : Effect)
    (l : List Effect) (he : p e = false) : (scheduleAt k e l).filter p = l.filter p := by
  unfold scheduleAt
  rw [List.filter_append, List.filter_cons_of_neg (by simp [he]), ← List.filter_append,
    List.take_append_drop]

theorem filter_scheduleAt_of_true (p : Effect → Bool) (k : Nat) (e : Effect)
    (l : List Effect) (he : p e = true) (hl : l.filter p = []) :
    (scheduleAt k e l).filter p = [e] := by
  unfold scheduleAt
  have h1 : (l.take k).filter p = [] := by
    apply List.filter_eq_nil_iff.2
    intro a ha
    exact List.filter_eq_nil_iff.1 hl a (List.mem_of_mem_take ha)
  have h2 : (l.drop k).filter p = [] := by
    apply List.filter_eq_nil_iff.2
    intro a ha
    exact List.filter_eq_nil_iff.1 hl a (List.mem_of_mem_drop ha)
  rw [List.filter_append, List.filter_cons_of_pos he, h1, h2]
  rfl

theorem filter_not_eq_self (p : Effect → Bool) (l : List Effect) (hl : l.filter p = []) :
    l.filter (fun e => !p e) = l := by
  apply List.filter_eq_self.2
  intro a ha
  have := List.filter_eq_nil_iff.1 hl a ha
  simpa using this

theorem Send_accepted (c : DiscordChannel) (msg : OutboundMessage) (platform : sendResult)
    (hrun : IsRunning c = true) (hchat : msg.ChatID ≠ "") :
    Send c msg platform =
      ((deferredStop c msg).1, sendBody msg platform,
        sendTrace msg platform (deferredStop c msg).2) := by
  simp [Send, hrun, hchat]

theorem Send_rejected (c : DiscordChannel) (msg : OutboundMessage) (platform : sendResult)
    (h : IsRunning c = false ∨ msg.ChatID = "") :
    (Send c msg platform).1 = c ∧ (Send c msg platform).2.2 = [] := by
  unfold Send
  by_cases hrun : IsRunning c = true
  · rcases h with h | h
    · rw [hrun] at h
      cases h
    · simp [hrun, h]
  · simp [hrun]

theorem deferredStop_final (c : DiscordChannel) (msg : OutboundMessage)
    (h : msg.IsFinal = true) :
    deferredStop c msg =
      ((stopTyping c msg.RequestID).1,
        Effect.callStopTyping msg.RequestID :: (stopTyping c msg.RequestID).2) := by
  simp [deferredStop, h]

theorem deferredStop_not_final (c : DiscordChannel) (msg : OutboundMessage)
    (h : msg.IsFinal = false) : deferredStop c msg = (c, []) := by
  simp [deferredStop, h]

/-- C6. `Send` on an adapter that is not running returns the error "discord bot not
running", leaves the adapter unchanged and has an empty trace, so no platform send call
is made, whatever the envelope and whatever the platform would answer; the adapter is
not running after `Stop`, whether closing the session failed or not, so the same holds
for a `Send` that follows `Stop`. -/
theorem Send_not_running (c : DiscordChannel) (msg : OutboundMessage) (platform : sendResult) :
    (IsRunning c = false → Send c msg platform = (c, some "discord bot not running", []))
      ∧ (∀ closeErr,
          IsRunning (Stop c closeErr).1 = false
            ∧ Send (Stop c closeErr).1 msg platform
              = ((Stop c closeErr).1, some "discord bot not running", [])) := by
  have key : ∀ d : DiscordChannel, IsRunning d = false →
      Send d msg platform = (d, some "discord bot not running", []) := by
    intro d h
    simp [Send, h]
  have hstop : ∀ closeErr, IsRunning (Stop c closeErr).1 = false := by
    intro closeErr
    cases closeErr <;> simp [Stop, stopAllTyping, setRunning, IsRunning]
  exact ⟨key c, fun closeErr => ⟨hstop closeErr, key _ (hstop closeErr)⟩⟩

/-- Witness for C6: a final text envelope sent to an adapter that was never started. -/
theorem Send_not_running_witness :
    IsRunning NewDiscordChannel = false
      ∧ Send NewDiscordChannel
          { Channel := "discord", ChatID := "chan", Content := "hi", SessionKey := "",
            RequestID := "r1", IsFinal := true, Control := false } (sendResult.done none)
        = (NewDiscordChannel, some "discord bot not running", []) :=
  ⟨by decide, (Send_not_running NewDiscordChannel _ _).1 (by decide)⟩

/-- C7. A control envelope sent to a running adapter with a non-empty conversation id:
`Send` returns no error and its trace holds no platform send call, whatever the text and
whatever the platform would answer. When the envelope is final the trace is the call of
`stopTyping` for its request id followed by the effects of that call, and the new state
is the one `stopTyping` returns; when it is not final the adapter, and with it the
typing registry, is unchanged and the trace is empty. -/
theorem Send_control_envelope (c : DiscordChannel) (msg : OutboundMessage)
    (platform : sendResult) (hrun : IsRunning c = true) (hchat : msg.ChatID ≠ "")
    (hctl : msg.Control = true) :
    (Send c msg platform).2.1 = none
      ∧ (Send c msg platform).2.2.filter isPlatformSend = []
      ∧ (msg.IsFinal = true →
          (Send c msg platform).1 = (stopTyping c msg.RequestID).1
            ∧ (Send c msg platform).2.2
              = Effect.callStopTyping msg.RequestID :: (stopTyping c msg.RequestID).2)
      ∧ (msg.IsFinal = false →
          (Send c msg platform).1 = c ∧ (Send c msg platform).2.2 = []) := by
  rw [Send_accepted c msg platform hrun hchat, sendBody_control msg platform hctl,
    sendTrace_control msg platform _ hctl]
  by_cases hf : msg.IsFinal = true
  · rw [deferredStop_final c msg hf]
    simp [hf, List.filter_cons, isPlatformSend, (stopTyping_trace_filters c msg.RequestID).2]
  · have hf2 : msg.IsFinal = false := by simpa using hf
    rw [deferredStop_not_final c msg hf2]
    simp [hf2]

/-- Witness for C7: a final control envelope for a request whose typing session is live. -/
theorem Send_control_envelope_witness :
    (Send (setRunning (startTyping NewDiscordChannel "r1" "chan").1 true)
        { Channel := "discord", ChatID := "chan", Content := "ignored", SessionKey := "",
          RequestID := "r1", IsFinal := true, Control := true }
        (sendResult.done none)).2.1 = none
      ∧ (Send (setRunning (startTyping NewDiscordChannel "r1" "chan").1 true)
        { Channel := "discord", ChatID := "chan", Content := "ignored", SessionKey := "",
          RequestID := "r1", IsFinal := true, Control := true }
        (sendResult.done none)).2.2.filter isPlatformSend = [] :=
  ⟨(Send_control_envelope _ _ _ (by decide) (by decide) (by decide)).1,
    (Send_control_envelope _ _ _ (by decide) (by decide) (by decide)).2.1⟩

/-- C1, as stated, fails, in two ways. A final envelope whose conversation id is empty,
sent to a running adapter with a live typing session for its request, is rejected before
the deferred function is registered: the trace holds no `stopTyping` call and the session
stays registered; the same happens on an adapter that is not running. And when the send
deadline expires before the send goroutine has reached the platform, the `stopTyping`
call comes before the platform send call, which the goroutine makes afterwards. -/
theorem Send_final_without_or_before_platform_call :
    (Send (setRunning (startTyping NewDiscordChannel "r1" "chan").1 true)
        { Channel := "discord", ChatID := "", Content := "hi", SessionKey := "",
          RequestID := "r1", IsFinal := true, Control := false }
        (sendResult.done none))
      = (setRunning (startTyping NewDiscordChannel "r1" "chan").1 true,
          some "channel ID is empty", [])
    ∧ (Send (startTyping NewDiscordChannel "r1" "chan").1
        { Channel := "discord", ChatID := "chan", Content := "hi", SessionKey := "",
          RequestID := "r1", IsFinal := true, Control := false }
        (sendResult.done none))
      = ((startTyping NewDiscordChannel "r1" "chan").1, some "discord bot not running", [])
    ∧ (Send (setRunning (startTyping NewDiscordChannel "r1" "chan").1 true)
        { Channel := "discord", ChatID := "chan", Content := "hi", SessionKey := "",
          RequestID := "r1", IsFinal := true, Control := false }
        (sendResult.timeout "context deadline exceeded" 4)).2
      = (some "send message timeout: context deadline exceeded",
          [Effect.goSend "chan" "hi", Effect.ctxDone, Effect.callStopTyping "r1",
            Effect.mapDelete "discord:req:r1", Effect.cancel 0,
            Effect.channelMessageSend "chan" "hi"]) := by
  decide

/-- C1, amended. A final envelope that `Send` rejects (adapter not running, or empty
conversation id) leaves the adapter unchanged and triggers no `stopTyping` call. A final
envelope that `Send` accepts triggers exactly one `stopTyping` call, for the request id
of the envelope, and the new state is the one `stopTyping` returns. For a control
envelope nothing else happens. Otherwise the call follows the launch of the send
goroutine and the step that makes the outcome known: when the result of the platform
call is received (success or failure) the trace is launch, platform call, receipt,
`stopTyping` call and its effects, so the platform call comes before and none after; on
timeout the steps of `Send` are launch, expiry of the deadline, `stopTyping` call and its
effects, and the one platform call of the goroutine falls where the scheduler puts it,
before or after the `stopTyping` call. -/
theorem Send_final_stops_typing_after_outcome (c : DiscordChannel) (msg : OutboundMessage)
    (platform : sendResult) :
    ((IsRunning c = false ∨ msg.ChatID = "") →
        (Send c msg platform).1 = c ∧ (Send c msg platform).2.2 = [])
      ∧ (IsRunning c = true → msg.ChatID ≠ "" → msg.IsFinal = true →
          (Send c msg platform).1 = (stopTyping c msg.RequestID).1
          ∧ (Send c msg platform).2.2.filter isStopTypingCall
            = [Effect.callStopTyping msg.RequestID]
          ∧ (msg.Control = true →
              (Send c msg platform).2.2
                = Effect.callStopTyping msg.RequestID :: (stopTyping c msg.RequestID).2)
          ∧ (∀ err, msg.Control = false → platform = sendResult.done err →
              (Send c msg platform).2.2
                = [Effect.goSend msg.ChatID msg.Content,
                    Effect.channelMessageSend msg.ChatID msg.Content, Effect.recvDone,
                    Effect.callStopTyping msg.RequestID] ++ (stopTyping c msg.RequestID).2
              ∧ (stopTyping c msg.RequestID).2.filter isPlatformSend = [])
          ∧ (∀ ctxErr callAt, msg.Control = false →
              platform = sendResult.timeout ctxErr callAt →
              (Send c msg platform).2.2
                = Effect.goSend msg.ChatID msg.Content ::
                    scheduleAt callAt (Effect.channelMessageSend msg.ChatID msg.Content)
                      (Effect.ctxDone :: Effect.callStopTyping msg.RequestID ::
                        (stopTyping c msg.RequestID).2)
              ∧ (Send c msg platform).2.2.filter (fun e => !isPlatformSend e)
                = Effect.goSend msg.ChatID msg.Content :: Effect.ctxDone ::
                    Effect.callStopTyping msg.RequestID :: (stopTyping c msg.RequestID).2
              ∧ (Send c msg platform).2.2.filter isPlatformSend
                = [Effect.channelMessageSend msg.ChatID msg.Content])) := by
  refine ⟨Send_rejected c msg platform, ?_⟩
  intro hrun hchat hfinal
  have hstopcall := (stopTyping_trace_filters c msg.RequestID).1
  have hstopsend := (stopTyping_trace_filters c msg.RequestID).2
  rw [Send_accepted c msg platform hrun hchat, deferredStop_final c msg hfinal]
  refine ⟨rfl, ?_, ?_, ?_, ?_⟩
  · by_cases hctl : msg.Control = true
    · rw [sendTrace_control msg platform _ hctl]
      simp [List.filter_cons, isStopTypingCall, hstopcall]
    · have hctl2 : msg.Control = false := by simpa using hctl
      cases platform with
      | done err =>
        simp [sendTrace, hctl2, List.filter_cons, isStopTypingCall, hstopcall]
      | timeout ctxErr callAt =>
        simp only [sendTrace, hctl2, Bool.false_eq_true, if_false]
        rw [List.filter_cons_of_neg (by simp [isStopTypingCall]),
          filter_scheduleAt_of_false _ _ _ _ (by simp [isStopTypingCall])]
        simp [List.filter_cons, isStopTypingCall, hstopcall]
  · intro hctl
    exact sendTrace_control msg platform _ hctl
  · intro err hctl hp
    subst hp
    refine ⟨?_, hstopsend⟩
    simp [sendTrace, hctl]
  · intro ctxErr callAt hctl hp
    subst hp
    have htrace : sendTrace msg (sendResult.timeout ctxErr callAt)
        (Effect.callStopTyping msg.RequestID :: (stopTyping c msg.RequestID).2)
        = Effect.goSend msg.ChatID msg.Content ::
            scheduleAt callAt (Effect.channelMessageSend msg.ChatID msg.Content)
              (Effect.ctxDone :: Effect.callStopTyping msg.RequestID ::
                (stopTyping c msg.RequestID).2) := by
      simp [sendTrace, hctl]
    have hrest : (Effect.ctxDone :: Effect.callStopTyping msg.RequestID ::
        (stopTyping c msg.RequestID).2).filter isPlatformSend = [] := by
      simp [List.filter_cons, isPlatformSend, hstopsend]
    refine ⟨htrace, ?_, ?_⟩
    · show (sendTrace msg (sendResult.timeout ctxErr callAt) _).filter _ = _
      rw [htrace, List.filter_cons_of_pos (by simp [isPlatformSend]),
        filter_scheduleAt_of_false _ _ _ _ (by simp [isPlatformSend]),
        filter_not_eq_self _ _ hrest]
    · show (sendTrace msg (sendResult.timeout ctxErr callAt) _).filter _ = _
      rw [htrace, List.filter_cons_of_neg (by simp [isPlatformSend]),
        filter_scheduleAt_of_true _ _ _ _ (by simp [isPlatformSend]) hrest]

/-- Witness for C1: a final text envelope whose platform send times out while the call
is in flight. -/
theorem Send_final_stops_typing_after_outcome_witness :
    (Send (setRunning (startTyping NewDiscordChannel "r1" "chan").1 true)
        { Channel := "discord", ChatID := "chan", Content := "hi", SessionKey := "",
          RequestID := "r1", IsFinal := true, Control := false }
        (sendResult.timeout "context deadline exceeded" 0)).2.2.filter isStopTypingCall
      = [Effect.callStopTyping "r1"] :=
  ((Send_final_stops_typing_after_outcome _ _ _).2 (by decide) (by decide) (by decide)).2.1

/-! ## Start -/

/-- When `session.Open()` fails, `Start` returns an error and leaves the adapter, and with
it the running flag, as it was. -/
theorem Start_open_failure (c : DiscordChannel) (e : String) (userErr : Option String) :
    Start c (some e) userErr
      = (c, some ("failed to open discord session: " ++ e),
          [Effect.addHandler, Effect.sessionOpen]) := rfl

/-- C8, the code at the failing input: on an adapter that was never started, `Start` with
a session that opens and an identity lookup that fails returns the error "failed to get
bot user: ..." and yet leaves the adapter running, so a following `Send` is not rejected
as "not running" but reaches the platform. A failed `session.Open()`, in contrast, leaves
the adapter not running. -/
theorem Start_identity_failure_leaves_running :
    (Start NewDiscordChannel none (some "unauthorized")).2.1
        = some "failed to get bot user: unauthorized"
      ∧ IsRunning (Start NewDiscordChannel none (some "unauthorized")).1 = true
      ∧ (Send (Start NewDiscordChannel none (some "unauthorized")).1
          { Channel := "discord", ChatID := "chan", Content := "hi", SessionKey := "",
            RequestID := "r1", IsFinal := false, Control := false }
          (sendResult.done none)).2
        = (none, [Effect.goSend "chan" "hi", Effect.channelMessageSend "chan" "hi",
            Effect.recvDone])
      ∧ IsRunning (Start NewDiscordChannel (some "no network") none).1 = false := by
  decide

/-! ## handleMessage -/

theorem appendContent_empty (suffix : String) : appendContent "" suffix = suffix := by
  simp [appendContent]

theorem attachment_placeholder_ne_empty (url : String) : "[attachment: " ++ url ++ "]" ≠ "" := by
  intro h
  have := congrArg String.length h
  simp [String.length_append] at this
  have h2 : ("[attachment: " : String).length = 13 := by decide
  omega

theorem transcribedText_ne_empty (env : Collaborators) (attachment : MessageAttachment)
    (localPath : String) : transcribedText env attachment localPath ≠ "" := by
  have key : ∀ a b : String, a.length ≠ 0 → a ++ b ≠ "" := by
    intro a b ha h
    have := congrArg String.length h
    simp [String.length_append] at this
    omega
  have h1 : ∀ x : String, "[audio: " ++ x ++ "]" ≠ "" := by
    intro x
    rw [String.append_assoc]
    exact key _ _ (by decide)
  have h2 : ∀ x : String, "[audio: " ++ x ++ " (transcription failed)]" ≠ "" := by
    intro x
    rw [String.append_assoc]
    exact key _ _ (by decide)
  have h3 : ∀ x : String, "[audio transcription: " ++ x ++ "]" ≠ "" := by
    intro x
    rw [String.append_assoc]
    exact key _ _ (by decide)
  unfold transcribedText
  cases env.transcriber with
  | none => exact h1 _
  | some t =>
    by_cases ha : t.IsAvailable = true
    · simp only [ha, if_true]
      cases t.Transcribe localPath with
      | error e => exact h2 _
      | ok text => exact h3 _
    · simp only [ha]
      exact h1 _

theorem handleMessage_accepted (c : DiscordChannel) (env : Collaborators) (m : MessageCreate)
    (author : User) (hauthor : m.Author = some author) (hself : author.ID ≠ env.selfID)
    (hallowed : env.IsAllowed author.ID = true) (v : LoopVars)
    (hv : m.Attachments.foldl (attachmentStep env)
      { content := m.Content, mediaPaths := [], localFiles := [], downloads := [] } = v)
    (hcontent : v.content ≠ "") :
    (handleMessage c env (some m)).handed.map (fun h => (h.senderID, h.chatID, h.content, h.media))
        = some (author.ID, m.ChannelID, v.content, v.mediaPaths)
      ∧ (handleMessage c env (some m)).channel = (startTyping c m.ID m.ChannelID).1
      ∧ (handleMessage c env (some m)).removed = v.localFiles := by
  simp [handleMessage, hauthor, hself, hallowed, hv, hcontent]

/-- C9, as stated, fails: an event without text from an allowed sender other than the
adapter, with the single non-audio attachment `pic.png`, reaches the bus with the
attachment placeholder as content, not with "[media only]". -/
theorem handleMessage_single_media_not_media_only :
    (handleMessage NewDiscordChannel (sampleCollaborators none)
        (some (sampleEvent "u1"
          { URL := "https://cdn.example/pic.png", Filename := "pic.png",
            ContentType := "image/png" }))).handed.map (fun h => (h.content, h.media))
      = some ("[attachment: https://cdn.example/pic.png]", ["https://cdn.example/pic.png"])
    ∧ (handleMessage NewDiscordChannel (sampleCollaborators none)
        (some (sampleEvent "u1"
          { URL := "https://cdn.example/pic.png", Filename := "pic.png",
            ContentType := "image/png" }))).handed.map (fun h => h.content)
      ≠ some "[media only]" := by
  decide

/-- C9, amended. For every event from an allowed sender other than the adapter itself,
with empty text and exactly one attachment that is not audio, `handleMessage` hands the
bus the content "[attachment: URL]", where URL is the remote URL of the attachment, and a
media list holding exactly that URL. -/
theorem handleMessage_single_media_attachment (c : DiscordChannel) (env : Collaborators)
    (m : MessageCreate) (author : User) (attachment : MessageAttachment)
    (hauthor : m.Author = some author) (hself : author.ID ≠ env.selfID)
    (hallowed : env.IsAllowed author.ID = true) (htext : m.Content = "")
    (hatt : m.Attachments = [attachment])
    (hmedia : env.IsAudioFile attachment.Filename attachment.ContentType = false) :
    (handleMessage c env (some m)).handed.map (fun h => (h.content, h.media))
      = some ("[attachment: " ++ attachment.URL ++ "]", [attachment.URL]) := by
  have hv : m.Attachments.foldl (attachmentStep env)
      { content := m.Content, mediaPaths := [], localFiles := [], downloads := [] }
      = { content := "[attachment: " ++ attachment.URL ++ "]",
          mediaPaths := [attachment.URL], localFiles := [], downloads := [] } := by
    simp [hatt, htext, attachmentStep, hmedia, appendContent_empty]
  have h := (handleMessage_accepted c env m author hauthor hself hallowed _ hv
    (attachment_placeholder_ne_empty attachment.URL)).1
  cases hh : (handleMessage c env (some m)).handed with
  | none => rw [hh] at h; simp at h
  | some b =>
    rw [hh] at h
    simp only [Option.map_some', Option.some.injEq, Prod.mk.injEq] at h ⊢
    exact ⟨h.2.2.1, h.2.2.2⟩

/-- Witness for C9: the event with the attachment `pic.png`. -/
theorem handleMessage_single_media_attachment_witness :
    (handleMessage NewDiscordChannel (sampleCollaborators none)
        (some (sampleEvent "u1"
          { URL := "https://cdn.example/pic.png", Filename := "pic.png",
            ContentType := "image/png" }))).handed.map (fun h => (h.content, h.media))
      = some ("[attachment: " ++ "https://cdn.example/pic.png" ++ "]",
          ["https://cdn.example/pic.png"]) :=
  handleMessage_single_media_attachment NewDiscordChannel (sampleCollaborators none)
    (sampleEvent "u1"
      { URL := "https://cdn.example/pic.png", Filename := "pic.png", ContentType := "image/png" })
    { ID := "u1", Username := "alice", Discriminator := "0" }
    { URL := "https://cdn.example/pic.png", Filename := "pic.png", ContentType := "image/png" }
    rfl (by decide) rfl rfl rfl (by decide)

/-- An event authored by the adapter itself is dropped before anything is downloaded. -/
theorem handleMessage_self_dropped (c : DiscordChannel) (env : Collaborators)
    (m : MessageCreate) (author : User) (hauthor : m.Author = some author)
    (hself : author.ID = env.selfID) :
    handleMessage c env (some m)
      = { channel := c, handed := none, loop := none, removed := [], downloads := [] } := by
  simp [handleMessage, hauthor, hself]

/-- C10. For every event from an allowed sender, with empty text and a single audio
attachment named F that `handleMessage` downloads with success, the content handed to the
bus is "[audio: F]" when no transcriber is configured or it reports itself unavailable,
"[audio transcription: T]" when the transcriber is available and returns T for the
downloaded file, and "[audio: F (transcription failed)]" when the transcriber is
available and fails (a timeout is such a failure); in all three cases the media list is
empty. -/
theorem handleMessage_single_audio_attachment (c : DiscordChannel) (env : Collaborators)
    (m : MessageCreate) (author : User) (attachment : MessageAttachment)
    (hauthor : m.Author = some author) (hallowed : env.IsAllowed author.ID = true)
    (htext : m.Content = "") (hatt : m.Attachments = [attachment])
    (haudio : env.IsAudioFile attachment.Filename attachment.ContentType = true)
    (hdownloaded :
      (attachment.URL, attachment.Filename) ∈ (handleMessage c env (some m)).downloads)
    (hdownload : env.DownloadFile attachment.URL attachment.Filename ≠ "") :
    ((env.transcriber = none ∨ ∃ t, env.transcriber = some t ∧ t.IsAvailable = false) →
        (handleMessage c env (some m)).handed.map (fun h => (h.content, h.media))
          = some ("[audio: " ++ attachment.Filename ++ "]", []))
      ∧ (∀ t text, env.transcriber = some t → t.IsAvailable = true →
          t.Transcribe (env.DownloadFile attachment.URL attachment.Filename) = Except.ok text →
          (handleMessage c env (some m)).handed.map (fun h => (h.content, h.media))
            = some ("[audio transcription: " ++ text ++ "]", []))
      ∧ (∀ t err, env.transcriber = some t → t.IsAvailable = true →
          t.Transcribe (env.DownloadFile attachment.URL attachment.Filename)
            = Except.error err →
          (handleMessage c env (some m)).handed.map (fun h => (h.content, h.media))
            = some ("[audio: " ++ attachment.Filename ++ " (transcription failed)]", [])) := by
  have hself : author.ID ≠ env.selfID := by
    intro hs
    rw [handleMessage_self_dropped c env m author hauthor hs] at hdownloaded
    simp at hdownloaded
  have hv : m.Attachments.foldl (attachmentStep env)
      { content := m.Content, mediaPaths := [], localFiles := [], downloads := [] }
      = { content := transcribedText env attachment
            (env.DownloadFile attachment.URL attachment.Filename),
          mediaPaths := [],
          localFiles := [env.DownloadFile attachment.URL attachment.Filename],
          downloads := [(attachment.URL, attachment.Filename)] } := by
    simp [hatt, htext, attachmentStep, haudio, hdownload, appendContent_empty]
  have h := (handleMessage_accepted c env m author hauthor hself hallowed _ hv
    (transcribedText_ne_empty env attachment _)).1
  have key : (handleMessage c env (some m)).handed.map (fun h => (h.content, h.media))
      = some (transcribedText env attachment
          (env.DownloadFile attachment.URL attachment.Filename), []) := by
    cases hh : (handleMessage c env (some m)).handed with
    | none => rw [hh] at h; simp at h
    | some b =>
      rw [hh] at h
      simp only [Option.map_some', Option.some.injEq, Prod.mk.injEq] at h ⊢
      exact ⟨h.2.2.1, h.2.2.2⟩
  rw [key]
  refine ⟨?_, ?_, ?_⟩
  · rintro (hnone | ⟨t, ht, hav⟩)
    · simp [transcribedText, hnone]
    · simp [transcribedText, ht, hav]
  · intro t text ht hav hres
    simp [transcribedText, ht, hav, hres]
  · intro t err ht hav hres
    simp [transcribedText, ht, hav, hres]

/-- Witness for C10: the attachment `note.ogg` with a transcriber that returns "hello". -/
theorem handleMessage_single_audio_attachment_witness :
    (handleMessage NewDiscordChannel
        (sampleCollaborators
          (some { IsAvailable := true, Transcribe := fun _ => Except.ok "hello" }))
        (some (sampleEvent "u1"
          { URL := "https://cdn.example/note.ogg", Filename := "note.ogg",
            ContentType := "audio/ogg" }))).handed.map (fun h => (h.content, h.media))
      = some ("[audio transcription: " ++ "hello" ++ "]", []) :=
  (handleMessage_single_audio_attachment NewDiscordChannel
    (sampleCollaborators
      (some { IsAvailable := true, Transcribe := fun _ => Except.ok "hello" }))
    (sampleEvent "u1"
      { URL := "https://cdn.example/note.ogg", Filename := "note.ogg", ContentType := "audio/ogg" })
    { ID := "u1", Username := "alice", Discriminator := "0" }
    { URL := "https://cdn.example/note.ogg", Filename := "note.ogg", ContentType := "audio/ogg" }
    rfl rfl rfl rfl (by decide) (by decide) (by decide)).2.1
    { IsAvailable := true, Transcribe := fun _ => Except.ok "hello" } "hello" rfl rfl rfl

/-- The scenario of the specification, evaluated: `note.ogg` with no transcriber, with a
transcriber that returns "hello", and with a transcriber that fails. -/
theorem handleMessage_note_ogg_scenario :
    (handleMessage NewDiscordChannel (sampleCollaborators none)
        (some (sampleEvent "u1"
          { URL := "https://cdn.example/note.ogg", Filename := "note.ogg",
            ContentType := "audio/ogg" }))).handed.map (fun h => (h.content, h.media))
      = some ("[audio: note.ogg]", [])
    ∧ (handleMessage NewDiscordChannel
        (sampleCollaborators
          (some { IsAvailable := true, Transcribe := fun _ => Except.ok "hello" }))
        (some (sampleEvent "u1"
          { URL := "https://cdn.example/note.ogg", Filename := "note.ogg",
            ContentType := "audio/ogg" }))).handed.map (fun h => (h.content, h.media))
      = some ("[audio transcription: hello]", [])
    ∧ (handleMessage NewDiscordChannel
        (sampleCollaborators
          (some { IsAvailable := true, Transcribe := fun _ => Except.error "deadline exceeded" }))
        (some (sampleEvent "u1"
          { URL := "https://cdn.example/note.ogg", Filename := "note.ogg",
            ContentType := "audio/ogg" }))).handed.map (fun h => (h.content, h.media))
      = some ("[audio: note.ogg (transcription failed)]", []) := by
  decide

/-! ## Sequence ids along runs of the registry -/

theorem run_append (c : DiscordChannel) (a b : List Op) :
    run c (a ++ b) = ((run (run c a).1 b).1, (run c a).2 ++ (run (run c a).1 b).2) := by
  induction a generalizing c with
  | nil => simp [run]
  | cons op ops ih =>
    rw [List.cons_append]
    simp only [run]
    rw [ih]
    simp [List.append_assoc]

theorem cleanupTypingTask_typingSeq (c : DiscordChannel) (key : String) (taskID : Nat) :
    (cleanupTypingTask c key taskID).typingSeq = c.typingSeq := by
  unfold cleanupTypingTask
  cases mapGet c.typingTasks key with
  | none => rfl
  | some t =>
    by_cases h : t.id = taskID
    · simp [h]
    · simp [h]

theorem stopTyping_typingSeq (c : DiscordChannel) (requestID : String) :
    (stopTyping c requestID).1.typingSeq = c.typingSeq := by
  by_cases hr : requestID = ""
  · rw [stopTyping_absent c requestID (Or.inl hr)]
  · cases hg : mapGet c.typingTasks (typingKey c requestID) with
    | none => rw [stopTyping_absent c requestID (Or.inr hg)]
    | some task => rw [stopTyping_present c requestID task hr hg]

theorem step_typingSeq (c : DiscordChannel) (op : Op) :
    ((step c op).2 = none ∧ (step c op).1.typingSeq = c.typingSeq)
      ∨ ∃ l, (step c op).2 = some l ∧ l.taskID = (c.typingSeq + 1) % uint64Size
          ∧ (step c op).1.typingSeq = (c.typingSeq + 1) % uint64Size := by
  cases op with
  | start requestID channelID =>
    simp only [step]
    by_cases hr : requestID = ""
    · subst hr
      rw [startTyping_empty]
      exact Or.inl ⟨rfl, rfl⟩
    · cases hg : mapGet c.typingTasks (typingKey c requestID) with
      | none =>
        rw [startTyping_fresh c requestID channelID hr hg]
        exact Or.inr ⟨_, rfl, rfl, rfl⟩
      | some task =>
        rw [startTyping_registered c requestID channelID (by simp [hg])]
        exact Or.inl ⟨rfl, rfl⟩
  | stop requestID => exact Or.inl ⟨rfl, stopTyping_typingSeq c requestID⟩
  | stopAll =>
    refine Or.inl ⟨rfl, ?_⟩
    simp only [step]
    rw [stopAllTyping_eq]
  | cleanup key taskID => exact Or.inl ⟨rfl, cleanupTypingTask_typingSeq c key taskID⟩

/-- The sequence ids handed out along a run are the successors of the counter, modulo
`2^64`, in launch order. -/
theorem run_taskIDs (ops : List Op) (c : DiscordChannel) :
    (run c ops).2.map typingLoop.taskID
        = (List.range' 1 (run c ops).2.length).map (fun i => (c.typingSeq + i) % uint64Size)
      ∧ ((run c ops).2.length = 0 → (run c ops).1.typingSeq = c.typingSeq)
      ∧ ((run c ops).2.length ≠ 0 →
          (run c ops).1.typingSeq = (c.typingSeq + (run c ops).2.length) % uint64Size) := by
  induction ops generalizing c with
  | nil => simp [run]
  | cons op ops ih =>
    obtain ⟨ih1, ih2, ih3⟩ := ih (step c op).1
    simp only [run]
    rcases step_typingSeq c op with ⟨hnone, hseq⟩ | ⟨l, hsome, hid, hseq⟩
    · rw [hnone]
      simp only [Option.toList, List.nil_append]
      rw [hseq] at ih1 ih2 ih3
      exact ⟨ih1, ih2, ih3⟩
    · rw [hsome]
      simp only [Option.toList, List.singleton_append, List.map_cons, List.length_cons]
      rw [hseq] at ih1 ih2 ih3
      refine ⟨?_, by simp, ?_⟩
      · rw [ih1, hid, List.range'_succ, List.map_cons]
        congr 1
        rw [← List.map_add_range', List.map_map]
        apply List.map_congr_left
        intro i _
        simp only [Function.comp_apply]
        rw [Nat.add_mod, Nat.mod_mod, ← Nat.add_mod]
        congr 1
        omega
      · intro _
        by_cases hz : (run (step c op).1 ops).2.length = 0
        · rw [ih2 hz, hz]
        · rw [ih3 hz, Nat.add_mod, Nat.mod_mod, ← Nat.add_mod]
          congr 1
          omega

theorem taskIDs_nodup (s n : Nat) (hn : n ≤ uint64Size) :
    ((List.range' 1 n).map (fun i => (s + i) % uint64Size)).Nodup := by
  apply List.Nodup.map_on _ (List.nodup_range' 1 n)
  intro x hx y hy hxy
  rw [List.mem_range'_1] at hx hy
  simp only [uint64Size] at hxy hn
  omega

theorem run_start_stop (s k : Nat) :
    run (idleChannel s k) [Op.start "a" "chan", Op.stop "a"]
      = (idleChannel ((s + 1) % uint64Size) (k + 1),
          [{ key := "discord:req:a", taskID := (s + 1) % uint64Size, channelID := "chan",
             ctx := k }]) := by
  have hkey : ∀ c : DiscordChannel, c.name = "discord" → typingKey c "a" = "discord:req:a" := by
    intro c hc
    simp only [typingKey, hc]
    decide
  have hne : ("discord:req:a" : String) ≠ "" := by decide
  simp [idleChannel, run, step, startTyping, stopTyping, hkey, hne, mapGet, mapSet, mapDelete]

theorem run_start_stop_repeated (n s k : Nat) (hs : s < uint64Size) :
    (run (idleChannel s k) (List.replicate n [Op.start "a" "chan", Op.stop "a"]).flatten).1
      = idleChannel ((s + n) % uint64Size) (k + n) := by
  induction n generalizing s k with
  | zero => simp [run, Nat.mod_eq_of_lt hs]
  | succ n ih =>
    rw [List.replicate_succ, List.flatten_cons, run_append, run_start_stop]
    simp only []
    rw [ih ((s + 1) % uint64Size) (k + 1) (Nat.mod_lt _ (by decide))]
    congr 1
    · rw [Nat.add_mod, Nat.mod_mod, ← Nat.add_mod]
      congr 1
      omega
    · omega

/-- C3, as stated, fails: `typingSeq` is a `uint64`, so after `2^64` sessions the counter
wraps. In the run `wrapOps` the first goroutine of request `a` and the goroutine of its
last restart both carry sequence id 1; the registry ends with the entry of the restart,
and the deferred `cleanupTypingTask` of the first, stale, goroutine deletes it. -/
theorem wrapped_counter_stale_cleanup_deletes_newer :
    List.Sublist
        [{ key := "discord:req:a", taskID := 1, channelID := "chan", ctx := 0 },
          ({ key := "discord:req:a", taskID := 1, channelID := "chan", ctx := 2 ^ 64 } :
            typingLoop)]
        (run NewDiscordChannel wrapOps).2
      ∧ mapGet (run NewDiscordChannel wrapOps).1.typingTasks "discord:req:a"
        = some { id := 1, cancel := 2 ^ 64 }
      ∧ mapGet (cleanupTypingTask (run NewDiscordChannel wrapOps).1 "discord:req:a" 1).typingTasks
          "discord:req:a" = none := by
  have h1 : run NewDiscordChannel [Op.start "a" "chan", Op.stop "a"]
      = (idleChannel 1 1,
          [{ key := "discord:req:a", taskID := 1, channelID := "chan", ctx := 0 }]) := by
    decide
  have h2 : (run (idleChannel 1 1)
        (List.replicate (2 ^ 64 - 1) [Op.start "a" "chan", Op.stop "a"]).flatten).1
      = idleChannel 0 (2 ^ 64) := by
    rw [run_start_stop_repeated (2 ^ 64 - 1) 1 1 (by decide)]
    rfl
  have h3 : run (idleChannel 0 (2 ^ 64)) [Op.start "a" "chan"]
      = ({ idleChannel 1 (2 ^ 64 + 1) with
            typingTasks := [("discord:req:a", { id := 1, cancel := 2 ^ 64 })] },
          [{ key := "discord:req:a", taskID := 1, channelID := "chan", ctx := 2 ^ 64 }]) := by
    decide
  have hrun : run NewDiscordChannel wrapOps
      = ({ idleChannel 1 (2 ^ 64 + 1) with
            typingTasks := [("discord:req:a", { id := 1, cancel := 2 ^ 64 })] },
          [{ key := "discord:req:a", taskID := 1, channelID := "chan", ctx := 0 }] ++
            ((run (idleChannel 1 1)
              (List.replicate (2 ^ 64 - 1) [Op.start "a" "chan", Op.stop "a"]).flatten).2 ++
              [{ key := "discord:req:a", taskID := 1, channelID := "chan", ctx := 2 ^ 64 }])) := by
    unfold wrapOps
    rw [run_append, h1]
    simp only []
    rw [run_append, h2]
    simp only []
    rw [h3]
  rw [hrun]
  refine ⟨?_, by decide, by decide⟩
  simp only [List.singleton_append]
  apply List.Sublist.cons₂
  apply List.Sublist.trans _ (List.sublist_append_right _ _)
  exact List.Sublist.refl _

theorem cleanupTypingTask_mismatch (c : DiscordChannel) (key : String) (taskID : Nat)
    (h : ∀ t, mapGet c.typingTasks key = some t → t.id ≠ taskID) :
    cleanupTypingTask c key taskID = c := by
  unfold cleanupTypingTask
  cases hg : mapGet c.typingTasks key with
  | none => rfl
  | some t => simp [h t hg]

/-- C3, amended. `cleanupTypingTask key taskID` changes the registry only when the entry
under `key` carries the sequence id `taskID`, and it never touches another key. In every
state reached from the new adapter by `startTyping`, `stopTyping`, `stopAllTyping` and
`cleanupTypingTask` in which at most `2^64` sessions have been registered so far (the
`uint64` counter has not come back to an id already handed out), the sequence ids of the
sessions registered so far are pairwise distinct; hence, when the registry holds the
entry of a session registered after a goroutine with the same key, the cleanup of that
earlier, stale, goroutine leaves the adapter unchanged. -/
theorem stale_cleanup_spares_newer_session (ops : List Op)
    (hbound : (run NewDiscordChannel ops).2.length ≤ uint64Size) :
    (∀ (c : DiscordChannel) (key : String) (taskID : Nat),
        (cleanupTypingTask c key taskID).typingTasks ≠ c.typingTasks →
          ∃ t, mapGet c.typingTasks key = some t ∧ t.id = taskID)
      ∧ (∀ (c : DiscordChannel) (key other : String) (taskID : Nat), other ≠ key →
          mapGet (cleanupTypingTask c key taskID).typingTasks other
            = mapGet c.typingTasks other)
      ∧ ((run NewDiscordChannel ops).2.map typingLoop.taskID).Nodup
      ∧ (∀ stale newer : typingLoop,
          List.Sublist [stale, newer] (run NewDiscordChannel ops).2 →
            stale.taskID ≠ newer.taskID)
      ∧ (∀ stale newer : typingLoop,
          List.Sublist [stale, newer] (run NewDiscordChannel ops).2 →
          stale.key = newer.key →
          mapGet (run NewDiscordChannel ops).1.typingTasks newer.key
            = some { id := newer.taskID, cancel := newer.ctx } →
          cleanupTypingTask (run NewDiscordChannel ops).1 stale.key stale.taskID
            = (run NewDiscordChannel ops).1) := by
  have hnodup : ((run NewDiscordChannel ops).2.map typingLoop.taskID).Nodup := by
    rw [(run_taskIDs ops NewDiscordChannel).1]
    exact taskIDs_nodup _ _ hbound
  have hpair : ∀ stale newer : typingLoop,
      List.Sublist [stale, newer] (run NewDiscordChannel ops).2 →
        stale.taskID ≠ newer.taskID := by
    intro stale newer hsub
    have h2 := List.Nodup.sublist (hsub.map typingLoop.taskID) hnodup
    simp only [List.map_cons, List.map_nil, List.nodup_cons, List.mem_singleton] at h2
    exact h2.1
  refine ⟨?_, ?_, hnodup, hpair, ?_⟩
  · intro c key taskID hchange
    by_contra hno
    apply hchange
    rw [cleanupTypingTask_mismatch c key taskID]
    intro t ht hid
    exact hno ⟨t, ht, hid⟩
  · intro c key other taskID hne
    unfold cleanupTypingTask
    cases hg : mapGet c.typingTasks key with
    | none => rfl
    | some t =>
      by_cases hid : t.id = taskID
      · simp only [hid, if_true]
        exact mapGet_mapDelete_ne _ _ _ hne
      · simp [hid]
  · intro stale newer hsub hkey hentry
    apply cleanupTypingTask_mismatch
    intro t ht hid
    rw [hkey, hentry] at ht
    cases ht
    exact hpair stale newer hsub hid.symm

/-- Witness for C3: request `r1` is started, stopped and started again; the cleanup of the
first goroutine, with sequence id 1, leaves the entry of the restart in place. -/
theorem stale_cleanup_spares_newer_session_witness :
    (run NewDiscordChannel
        [Op.start "r1" "chan", Op.stop "r1", Op.start "r1" "chan"]).2.length ≤ uint64Size
      ∧ cleanupTypingTask
          (run NewDiscordChannel [Op.start "r1" "chan", Op.stop "r1", Op.start "r1" "chan"]).1
          "discord:req:r1" 1
        = (run NewDiscordChannel [Op.start "r1" "chan", Op.stop "r1", Op.start "r1" "chan"]).1 :=
  ⟨by decide,
    (stale_cleanup_spares_newer_session
      [Op.start "r1" "chan", Op.stop "r1", Op.start "r1" "chan"] (by decide)).2.2.2.2
      { key := "discord:req:r1", taskID := 1, channelID := "chan", ctx := 0 }
      { key := "discord:req:r1", taskID := 2, channelID := "chan", ctx := 1 }
      (by
        rw [show (run NewDiscordChannel
            [Op.start "r1" "chan", Op.stop "r1", Op.start "r1" "chan"]).2
          = [{ key := "discord:req:r1", taskID := 1, channelID := "chan", ctx := 0 },
             { key := "discord:req:r1", taskID := 2, channelID := "chan", ctx := 1 }] by decide])
      rfl (by decide)⟩

/-! ## Reachable registries are maps -/

theorem step_nodup_keys (c : DiscordChannel) (op : Op)
    (hwf : (c.typingTasks.map Prod.fst).Nodup) :
    ((step c op).1.typingTasks.map Prod.fst).Nodup := by
  cases op with
  | start requestID channelID => exact startTyping_nodup_keys c requestID channelID hwf
  | stop requestID =>
    simp only [step]
    by_cases hr : requestID = ""
    · rw [stopTyping_absent c requestID (Or.inl hr)]
      exact hwf
    · cases hg : mapGet c.typingTasks (typingKey c requestID) with
      | none =>
        rw [stopTyping_absent c requestID (Or.inr hg)]
        exact hwf
      | some task =>
        rw [stopTyping_present c requestID task hr hg]
        exact nodup_keys_mapDelete _ _ hwf
  | stopAll =>
    simp only [step]
    rw [stopAllTyping_eq]
    exact List.nodup_nil
  | cleanup key taskID =>
    simp only [step]
    unfold cleanupTypingTask
    cases hg : mapGet c.typingTasks key with
    | none => exact hwf
    | some t =>
      by_cases hid : t.id = taskID
      · simp only [hid, if_true]
        exact nodup_keys_mapDelete _ _ hwf
      · simp only [hid, if_false]
        exact hwf

/-- In every state reached from the new adapter by registry calls the registry holds at
most one entry per key. -/
theorem run_nodup_keys (ops : List Op) (c : DiscordChannel)
    (hwf : (c.typingTasks.map Prod.fst).Nodup) :
    ((run c ops).1.typingTasks.map Prod.fst).Nodup := by
  induction ops generalizing c with
  | nil => exact hwf
  | cons op ops ih => exact ih _ (step_nodup_keys c op hwf)

/-! ## The sentinel branch of handleMessage -/

theorem appendContent_ne_empty (content suffix : String) (h : suffix ≠ "") :
    appendContent content suffix ≠ "" := by
  unfold appendContent
  by_cases hc : content = ""
  · simpa [hc] using h
  · simp only [hc, if_false]
    intro hh
    have hlen := congrArg String.length hh
    simp only [String.length_append] at hlen
    have h1 : ("\n" : String).length = 1 := by decide
    have h0 : ("" : String).length = 0 := rfl
    omega

theorem attachmentStep_content_ne_empty (env : Collaborators) (v : LoopVars)
    (attachment : MessageAttachment) : (attachmentStep env v attachment).content ≠ "" := by
  unfold attachmentStep
  by_cases ha : env.IsAudioFile attachment.Filename attachment.ContentType = true
  · by_cases hd : env.DownloadFile attachment.URL attachment.Filename = ""
    · simp only [ha, if_true, hd, ne_eq, not_true_eq_false, if_false]
      exact appendContent_ne_empty _ _ (attachment_placeholder_ne_empty _)
    · simp only [ha, if_true, ne_eq, hd, not_false_eq_true]
      exact appendContent_ne_empty _ _ (transcribedText_ne_empty _ _ _)
  · simp only [ha]
    exact appendContent_ne_empty _ _ (attachment_placeholder_ne_empty _)

theorem foldl_attachmentStep_media (env : Collaborators) (attachments : List MessageAttachment)
    (v : LoopVars) (hv : v.mediaPaths ≠ [] → v.content ≠ "") :
    (attachments.foldl (attachmentStep env) v).mediaPaths ≠ [] →
      (attachments.foldl (attachmentStep env) v).content ≠ "" := by
  induction attachments generalizing v with
  | nil => exact hv
  | cons a rest ih =>
    simp only [List.foldl_cons]
    exact ih _ (fun _ => attachmentStep_content_ne_empty env v a)

/-- Whenever `handleMessage` hands an event to the bus, the content is the accumulated
text, which is not empty: the substitution of "[media only]" never applies. -/
theorem handleMessage_content_is_accumulated (c : DiscordChannel) (env : Collaborators)
    (m : MessageCreate) (h : BusHandoff)
    (hh : (handleMessage c env (some m)).handed = some h) :
    h.content = (m.Attachments.foldl (attachmentStep env)
        { content := m.Content, mediaPaths := [], localFiles := [], downloads := [] }).content
      ∧ h.content ≠ "" := by
  have hmedia := foldl_attachmentStep_media env m.Attachments
    { content := m.Content, mediaPaths := [], localFiles := [], downloads := [] } (fun hne => absurd rfl hne)
  unfold handleMessage at hh
  cases hauthor : m.Author with
  | none => simp [hauthor] at hh
  | some author =>
    simp only [hauthor] at hh
    by_cases hself : author.ID = env.selfID
    · simp [hself] at hh
    · by_cases hallowed : env.IsAllowed author.ID = true
      · simp only [hself, if_false, hallowed, Bool.not_true] at hh
        by_cases hempty : (m.Attachments.foldl (attachmentStep env)
            { content := m.Content, mediaPaths := [], localFiles := [], downloads := [] }).content = ""
        · have hnil : (m.Attachments.foldl (attachmentStep env)
              { content := m.Content, mediaPaths := [], localFiles := [], downloads := [] }).mediaPaths = [] := by
            by_contra hne
            exact hmedia hne hempty
          simp [hempty, hnil] at hh
        · simp only [hempty, false_and, if_false, Bool.false_eq_true] at hh
          cases hh
          exact ⟨rfl, hempty⟩
      · simp [hself, hallowed] at hh

end Picoclaw
